import Mathlib

/-
Verification development for the ios-triage incident-response tool.

The definitions below are a shallow embedding of the JavaScript source in
src/index.js.  JavaScript strings are modelled as Lean `String`; the string
methods used by the source (`startsWith`, `split`, `trim`, `endsWith`,
byte-oriented `slice`/length) are modelled by executable helpers over the
underlying character list, so that every definition evaluates inside the
kernel.  Buffer byte counts are modelled as character counts (all the data
involved is ASCII).  Property lists parsed by the `plist` package are
modelled by the inductive `PVal`; a JavaScript object is an association
list in insertion order.
-/

set_option maxRecDepth 100000

/-- Character class trimmed by the JavaScript `String.prototype.trim`
(restricted to the ASCII whitespace that occurs in tool output). -/
def jsSpace (c : Char) : Bool := c = ' ' || c = '\t' || c = '\n' || c = '\r'

/-- Model of `str.trim()`: removes leading and trailing whitespace. -/
def jsTrim (s : String) : String :=
  String.mk (((s.data.dropWhile jsSpace).reverse.dropWhile jsSpace).reverse)

/-- Model of `str.startsWith(pre)`. -/
def jsStartsWith (s pre : String) : Bool := pre.data.isPrefixOf s.data

/-- Model of `str.endsWith(suf)`. -/
def jsEndsWith (s suf : String) : Bool := suf.data.reverse.isPrefixOf s.data.reverse

/-- Helper for `jsSplit`: accumulates the current field (reversed) while
scanning the characters. -/
def splitCharAux (c : Char) : List Char → List Char → List (List Char)
  | [], acc => [acc.reverse]
  | x :: xs, acc =>
    if x = c then acc.reverse :: splitCharAux c xs []
    else splitCharAux c xs (x :: acc)

/-- Model of `str.split(c)` for a single-character separator: splits at every
occurrence, keeping empty fields, and yields `[""]` on the empty string,
exactly as in JavaScript. -/
def jsSplit (c : Char) (s : String) : List String :=
  (splitCharAux c s.data []).map String.mk

/-- Values of a parsed property list (the `plist` package returns plain
JavaScript values: strings, booleans, numbers, arrays and objects). -/
inductive PVal where
  | str : String → PVal
  | bool : Bool → PVal
  | int : Int → PVal
  | arr : List PVal → PVal
  | dict : List (String × PVal) → PVal

/-- Keys enumerated by a JavaScript `for (k in v)` loop over a parsed plist
value: the own properties of an object, nothing for the scalars that occur
in the artifacts. -/
def pvalKeys : PVal → List String
  | PVal.dict d => d.map Prod.fst
  | _ => []

/-- JavaScript coerces a value used as an object property key to a string;
only the scalar cases occur in the tallied artifact data. -/
def pvalPropertyKey : PVal → String
  | PVal.str s => s
  | PVal.bool b => toString b
  | PVal.int n => toString n
  | _ => ""

/-- Model of the strict comparison `v === true`. -/
def pvIsTrue : PVal → Bool
  | PVal.bool b => b
  | _ => false

/-- Model of the strict comparison `v === s` against a string literal. -/
def pvIsStr (s : String) : PVal → Bool
  | PVal.str t => t == s
  | _ => false

/-- Counter object accumulated by `processInstalledAppsXML` (the `apps.summary`
fields together with the local counter variables that are copied into it). -/
structure AppsSummary where
  totalApps : Nat
  userApps : Nat
  systemApps : Nat
  nonAppleSigner : Nat
  appsWithEntitlements : Nat
  usePersistentWifi : Nat
  requestsForPrivacySensitiveDataAccess : Nat
  allowArbitraryLoads : Nat
  allowArbitraryLoadsInWebContent : Nat
  domainsAllowedArbitraryLoads : Nat
  entitlements : List (String × Nat)
  privacySensitiveDataAccess : List (String × Nat)
  uiBackgroundModes : List (String × Nat)

/-- All counters of `processInstalledAppsXML` start at zero and the tally
objects start empty. -/
def initAppsSummary : AppsSummary :=
  { totalApps := 0, userApps := 0, systemApps := 0, nonAppleSigner := 0,
    appsWithEntitlements := 0, usePersistentWifi := 0,
    requestsForPrivacySensitiveDataAccess := 0, allowArbitraryLoads := 0,
    allowArbitraryLoadsInWebContent := 0, domainsAllowedArbitraryLoads := 0,
    entitlements := [], privacySensitiveDataAccess := [], uiBackgroundModes := [] }

/-- The pattern `if (!(k in tally)) tally[k] = 0; tally[k]++` used for the
per-name tallies; a fresh key is appended in insertion order. -/
def tallyBump (m : List (String × Nat)) (k : String) : List (String × Nat) :=
  match m.lookup k with
  | none => m ++ [(k, 1)]
  | some _ => m.map fun p => if p.1 == k then (p.1, p.2 + 1) else p

/-- One step of the inner `switch (transportProperty)` loop over the
`NSAppTransportSecurity` dictionary of an application. -/
def atsStep (s : AppsSummary) (tp : String × PVal) : AppsSummary :=
  if tp.1 == "NSAllowsArbitraryLoads" then
    (if pvIsTrue tp.2 then
      { s with allowArbitraryLoads := s.allowArbitraryLoads + 1 }
     else s)
  else if tp.1 == "NSAllowsArbitraryLoadsInWebContent" then
    (if pvIsTrue tp.2 then
      { s with allowArbitraryLoadsInWebContent := s.allowArbitraryLoadsInWebContent + 1 }
     else s)
  else if tp.1 == "NSExceptionDomains" then
    { s with domainsAllowedArbitraryLoads :=
        s.domainsAllowedArbitraryLoads + (pvalKeys tp.2).length }
  else s

/-- The `for (transportProperty in app[attrib])` loop of the
`NSAppTransportSecurity` case. -/
def atsScan (s : AppsSummary) (v : PVal) : AppsSummary :=
  match v with
  | PVal.dict d => d.foldl atsStep s
  | _ => s

/-- One step of the `switch (attrib)` statement applied to a single property
of one application record. -/
def appAttribStep (s : AppsSummary) (attrib : String) (v : PVal) : AppsSummary :=
  if attrib == "Entitlements" then
    { s with appsWithEntitlements := s.appsWithEntitlements + 1,
             entitlements := (pvalKeys v).foldl tallyBump s.entitlements }
  else if attrib == "NSAppTransportSecurity" then
    atsScan s v
  else if attrib == "UIRequiresPersistentWiFi" then
    (if pvIsTrue v then { s with usePersistentWifi := s.usePersistentWifi + 1 } else s)
  else if attrib == "UIBackgroundModes" then
    (match v with
     | PVal.arr xs =>
       { s with uiBackgroundModes := (xs.map pvalPropertyKey).foldl tallyBump s.uiBackgroundModes }
     | _ => s)
  else if attrib == "SignerIdentity" then
    (if pvIsStr "Apple iPhone OS Application Signing" v then s
     else { s with nonAppleSigner := s.nonAppleSigner + 1 })
  else if attrib == "ApplicationType" then
    (if pvIsStr "User" v then { s with userApps := s.userApps + 1 }
     else if pvIsStr "System" v then { s with systemApps := s.systemApps + 1 }
     else s)
  else if jsEndsWith attrib "UsageDescription" then
    { s with requestsForPrivacySensitiveDataAccess :=
               s.requestsForPrivacySensitiveDataAccess + 1,
             privacySensitiveDataAccess := tallyBump s.privacySensitiveDataAccess attrib }
  else s

/-- Processing of one application record: `totalApps++` followed by the
`for (attrib in app)` loop. -/
def processApp (s : AppsSummary) (app : List (String × PVal)) : AppsSummary :=
  app.foldl (fun acc kv => appAttribStep acc kv.1 kv.2)
    { s with totalApps := s.totalApps + 1 }

/-- Counter part of `processInstalledAppsXML`: the `for (prop in obj)` loop
over the parsed array of application records. -/
def processInstalledAppsXML (apps : List (List (String × PVal))) : AppsSummary :=
  apps.foldl processApp initAppsSummary

/-- The `device.details` object built by `processDeviceInfo`: the primary
`ideviceinfo.xml` plist under `standard` (when it parsed) and one entry per
parsed domain file. -/
structure DeviceRecord where
  standard : Option PVal
  domains : List (String × PVal)

/-- Model of `file.slice(12, file.length - 4)`: trims the leading
`ideviceinfo-` and the trailing `.xml`. -/
def domainNameOf (file : String) : String :=
  String.mk ((file.data.drop 12).take (file.data.length - 16))

/-- Model of `processDeviceInfo`.  The artifact directory is an association
list from file name to the plist parse outcome of that file (`none` when
reading or parsing throws).  Both branches of the internal `async.parallel`
call back with a `null` error — a parse failure of the primary file only
switches the status message — and the final write callback also reports a
`null` error, so the function always returns `Except.ok`. -/
def processDeviceInfo (files : List (String × Option PVal)) :
    Except String (DeviceRecord × String) :=
  let primary := (files.lookup "ideviceinfo.xml").join
  let msg :=
    if primary.isSome then "Processed main ideviceinfo plist"
    else "Hit snag processing main ideviceinfo plist"
  let domains := files.filterMap fun nc =>
    if jsStartsWith nc.1 "ideviceinfo-" then
      nc.2.map fun v => (domainNameOf nc.1, v)
    else none
  Except.ok ({ standard := primary, domains := domains }, msg)

/-- Summary part of the crash-report record. -/
structure CrashSummary where
  reports : Nat
  filenames : List String
deriving DecidableEq, Repr

/-- One entry of `crashreports.details`. -/
structure CrashFileDetail where
  filename : String
  size : Nat
  preview : List String
deriving DecidableEq, Repr

/-- The processed crash-report record. -/
structure CrashReportsRecord where
  summary : CrashSummary
  details : List CrashFileDetail
deriving DecidableEq, Repr

/-- The streaming loop of `processCrashReports` over the lines of
`crashlogs.txt`: every line starting with `Copy: ` bumps the counter and
pushes `line.split(' ')[1]`. -/
def scanCopyLines (lines : List String) : Nat × List String :=
  lines.foldl
    (fun acc l =>
      if jsStartsWith l "Copy: " then (acc.1 + 1, acc.2 ++ [(jsSplit ' ' l).getD 1 ""])
      else acc)
    (0, [])

/-- The preview computed for one referenced crash file: the placeholder
string for an empty file, the whole content below 500 bytes, the first 500
bytes otherwise; in each case split at newlines. -/
def crashPreview (c : String) : List String :=
  if c.data.length = 0 then jsSplit '\n' "Empty file"
  else if c.data.length < 500 then jsSplit '\n' c
  else jsSplit '\n' (String.mk (c.data.take 500))

/-- Detail entry for one referenced crash file; `none` models the uncaught
`fs.statSync` exception when the referenced file does not exist. -/
def crashDetailFor (fsc : List (String × String)) (f : String) : Option CrashFileDetail :=
  (fsc.lookup f).map fun c =>
    { filename := f, size := c.data.length, preview := crashPreview c }

/-- The `for` loop over `crashreports.summary.filenames` building the
details list. -/
def crashDetails (fsc : List (String × String)) : List String → Option (List CrashFileDetail)
  | [] => some []
  | f :: fs =>
    match crashDetailFor fsc f, crashDetails fsc fs with
    | some d, some ds => some (d :: ds)
    | _, _ => none

/-- Model of `processCrashReports`: `lines` is the transcript
`crash_reports/crashlogs.txt` split into lines, `fsc` maps each file in the
crash-report directory to its content. -/
def processCrashReports (lines : List String) (fsc : List (String × String)) :
    Option CrashReportsRecord :=
  let scan := scanCopyLines lines
  match crashDetails fsc scan.2 with
  | some ds => some { summary := { reports := scan.1, filenames := scan.2 }, details := ds }
  | none => none

/-- Value stored under `backup.summary.files`: the initial JavaScript number
`0`, or the raw string field copied from the log line. -/
inductive JsonScalar where
  | num : Nat → JsonScalar
  | str : String → JsonScalar
deriving DecidableEq, Repr

/-- Model of the line scan of `processBackup`: every line starting with
`Received ` overwrites `backupFileCount` with `line.split(' ')[1]` (a
string); the initial value is the number `0`. -/
def processBackup (lines : List String) : JsonScalar :=
  lines.foldl
    (fun acc l =>
      if jsStartsWith l "Received " then JsonScalar.str ((jsSplit ' ' l).getD 1 "")
      else acc)
    (JsonScalar.num 0)

/-- One finding pushed onto `issues.details`. -/
structure Finding where
  title : String
  level : String
  description : String
  remediation : String
deriving DecidableEq, Repr

/-- The `issues` object written by `findIssues`. -/
structure IssuesRecord where
  count : Nat
  details : List Finding
deriving DecidableEq, Repr

/-- The processed summary fields read by `findIssues` from the processed
JSON files of a snapshot. -/
structure ProcessedSnapshot where
  passwordProtected : Option Bool
  productVersion : String
  pprofilesFound : Nat
  nonAppleSigner : Nat
deriving DecidableEq, Repr

/-- Finding pushed when the device is not password protected. -/
def passwordFinding : Finding :=
  { title := "Device not password protected", level := "medium",
    description := "This device does is not password protected. The device is more suseptible to compromise if an attacker can briefly gain physical access. THese risks include the ability to extract data from the device (using backup, forensic or maybe even ios-triage!) and run applications. In addition, sensitive data encrypted at rest by the iDevice and apps lack an additional level of security.",
    remediation := "Password protext the device, ideally with an alphanumeric passcode or a PIN at least 6 digits long" }

/-- Finding pushed when the device version differs from the configured
latest iOS version. -/
def versionFinding (latest : String) : Finding :=
  { title := "iOS version out of date", level := "high",
    description := "This device is not running the latest version of iOS. Apple regularly patches security flaws in iOS and the flaws are publicly acknowledged (see https://support.apple.com/en-us/HT207482 for 10.2.1 security update). Attackers can leverage this information to compromise your device and data.",
    remediation := "Update your device to the latest available version immediately (currently " ++ latest ++ "). If you are running on older hardware and newer iOS versions are unavailable, it is recommended you move to a new device." }

/-- Finding pushed when provisioning profiles were found. -/
def pprofilesFinding : Finding :=
  { title := "Provisioning profiles found", level := "medium",
    description := "Install provisioning profiles can create situations for abuse. An attacker with physical access could push an app onto your device with significant privileges.",
    remediation := "Inspect all provisioning profiles to ensure they are legitimate." }

/-- Finding pushed when non-Apple-signed applications were found. -/
def developerAppsFinding : Finding :=
  { title := "Developer signed apps found", level := "medium",
    description := "This device contains developer signed apps. There apps circumvent the App Store review and could possible contain malicious code.",
    remediation := "Inspect all non-Apple signed apps to ensure they are legitimate." }

/-- Model of `findIssues` over the processed summary data; `latest` is the
configured `LATEST_IOS_VERSION` constant (required from ios-versions.js,
which is outside src).  Each rule increments `issueCount` and pushes its
finding; `!PasswordProtected` is the JavaScript truthiness test, so the rule
fires unless the field is present and `true`. -/
def findIssues (latest : String) (d : ProcessedSnapshot) : IssuesRecord :=
  let s0 : Nat × List Finding := (0, [])
  let s1 :=
    if d.passwordProtected = some true then s0
    else (s0.1 + 1, s0.2 ++ [passwordFinding])
  let s2 :=
    if d.productVersion = latest then s1
    else (s1.1 + 1, s1.2 ++ [versionFinding latest])
  let s3 :=
    if 0 < d.pprofilesFound then (s2.1 + 1, s2.2 ++ [pprofilesFinding]) else s2
  let s4 :=
    if 0 < d.nonAppleSigner then (s3.1 + 1, s3.2 ++ [developerAppsFinding]) else s3
  { count := s4.1, details := s4.2 }

/-- Model of `getUDID`: `output` is the data collected from `idevice_id -l`.
A 41-byte response is the success signal; an empty response means no
authorized device; anything else is forwarded as the error. -/
def getUDID (output : String) : Except String String :=
  if output.length = 41 then Except.ok (jsTrim output)
  else if output.length = 0 then
    Except.error "No authorized iDevice found. Plug in and authorize a device first."
  else Except.error output

/-- The options `getDeviceSyslog` passes to `childProcess.execFile`: a user
timeout in milliseconds (0 when no syslog timeout was supplied) and the
enlarged 5 MB buffer ceiling. -/
structure SyslogSpawn where
  timeoutMs : Nat
  maxBuffer : Nat
deriving DecidableEq, Repr

/-- Model of the spawn configuration of `getDeviceSyslog`. -/
def getDeviceSyslog (syslogTimeout : Option Nat) : SyslogSpawn :=
  { timeoutMs := (match syslogTimeout with | some t => t * 1000 | none => 0),
    maxBuffer := 5000 * 1024 }

/-- The five keys of the `async.parallel` task object in `extractArtifacts`. -/
inductive CaptureTaskId where
  | backup
  | deviceInfo
  | installedApps
  | provisioningProfiles
  | crashReports
deriving DecidableEq, Repr

/-- The task keys in declaration order. -/
def allCaptureTasks : List CaptureTaskId :=
  [CaptureTaskId.backup, CaptureTaskId.deviceInfo, CaptureTaskId.installedApps,
   CaptureTaskId.provisioningProfiles, CaptureTaskId.crashReports]

/-- One invocation of a task callback: a success call or an error call. -/
inductive CbEvent where
  | ok
  | err
deriving DecidableEq, Repr

/-- Callback invocations produced by the spawn-based capture helpers
(`getInstalledApps`, `copyProvisioningProfiles`, `getCrashReports`,
`doDeviceBackup`).  The stdout `end` event always fires before the process
`close` event, so the success callback runs first; a non-zero exit code then
invokes the callback a second time with an error. -/
def spawnScript (exitCode : Int) : List CbEvent :=
  if exitCode = 0 then [CbEvent.ok] else [CbEvent.ok, CbEvent.err]

/-- Exit codes of the spawn-based capture helpers in one extraction run. -/
structure TaskExitCodes where
  backup : Int
  installedApps : Int
  provisioningProfiles : Int
  crashReports : Int
deriving DecidableEq, Repr

/-- The options of the `extract` command. -/
structure ExtractOptions where
  backup : Bool
  syslogTimeout : Option Nat
deriving DecidableEq, Repr

/-- Callback sequence of each parallel task: skipping the backup and
`getDeviceInfo` call back exactly once with success; the spawn-based helpers
follow `spawnScript` of their exit code. -/
def taskScript (opts : ExtractOptions) (codes : TaskExitCodes) :
    CaptureTaskId → List CbEvent
  | CaptureTaskId.backup =>
    if opts.backup then spawnScript codes.backup else [CbEvent.ok]
  | CaptureTaskId.deviceInfo => [CbEvent.ok]
  | CaptureTaskId.installedApps => spawnScript codes.installedApps
  | CaptureTaskId.provisioningProfiles => spawnScript codes.provisioningProfiles
  | CaptureTaskId.crashReports => spawnScript codes.crashReports

/-- A chronological event list is a run of the parallel phase when its
per-task projection matches each task's callback script. -/
def validEvents (opts : ExtractOptions) (codes : TaskExitCodes)
    (events : List (CaptureTaskId × CbEvent)) : Bool :=
  allCaptureTasks.all fun t =>
    decide ((events.filter (fun p => p.1 == t)).map Prod.snd = taskScript opts codes t)

/-- The final `async.parallel` callback invocation: the event index at which
it ran and the tasks that had called back at that point. -/
structure ParFire where
  idx : Nat
  called : List CaptureTaskId
deriving DecidableEq, Repr

/-- State machine of the `async` library processing the task callbacks in
chronological order.  A second invocation of the same task callback throws
`Callback was already called` (the `onlyOnce` guard), which is uncaught and
stops the run.  The final callback fires on the first error or once every
task has called back; it runs at most once. -/
def runEvents : List (CaptureTaskId × CbEvent) → List CaptureTaskId → Nat →
    Option ParFire → Bool × Option ParFire
  | [], _, _, fire => (false, fire)
  | (t, e) :: rest, called, i, fire =>
    if t ∈ called then (true, fire)
    else
      runEvents rest (t :: called) (i + 1)
        (match fire with
         | some f => some f
         | none =>
           if e == CbEvent.err
               || allCaptureTasks.all (fun u => decide (u ∈ t :: called)) then
             some { idx := i, called := t :: called }
           else none)

/-- Outcome of the post-UDID part of `extractArtifacts`. -/
structure ExtractRun where
  crashed : Bool
  fire : Option ParFire
  finished : Bool
  sigintSent : Bool
deriving DecidableEq, Repr

/-- Model of the orchestration after the working directory is set up: the
final `async.parallel` callback logs any error, kills the syslog child with
SIGINT exactly when no syslog timeout was supplied, and reports
`extract complete`; `finished` records whether that callback ever ran. -/
def extractionRun (opts : ExtractOptions) (events : List (CaptureTaskId × CbEvent)) :
    ExtractRun :=
  let r := runEvents events [] 0 none
  { crashed := r.1, fire := r.2, finished := r.2.isSome,
    sigintSent := r.2.isSome && opts.syslogTimeout.isNone }

/-- Model of `extractArtifacts`: a UDID resolution error is returned as the
single error of the whole extraction; otherwise the parallel phase runs. -/
def extractArtifacts (udidOutput : String) (opts : ExtractOptions)
    (events : List (CaptureTaskId × CbEvent)) : Except String ExtractRun :=
  match getUDID udidOutput with
  | Except.error e => Except.error e
  | Except.ok _ => Except.ok (extractionRun opts events)

/-- A normalized snapshot data tree handed to the diff step of
`generateReport`: nested mappings, ordered sequences and scalars.
Modelled from the spec: the structural diff engine invoked at
`deepdiff(data, dataRhs)` is the external deep-diff package, not code under
src, so the tree shape and the diff algorithm follow the specification
(data model and component design of the snapshot diff engine). -/
inductive DTree where
  | scalar : String → DTree
  | map : List (String × DTree) → DTree
  | seq : List DTree → DTree

/-- One component of a DiffEntry path: a mapping key or a sequence index. -/
inductive PathKey where
  | key : String → PathKey
  | idx : Nat → PathKey
deriving DecidableEq, Repr

/-- The change kind of a DiffEntry. -/
inductive ChangeKind where
  | added
  | removed
  | edited
deriving DecidableEq, Repr

/-- One unit of change between two snapshot trees; the old value is absent
for an addition and the new value is absent for a removal. -/
structure DiffEntry where
  path : List PathKey
  kind : ChangeKind
  oldVal : Option DTree
  newVal : Option DTree

mutual

/-- Modelled from the spec: the recursive structural diff.  Equal scalars
produce nothing and unequal scalars one edited entry; mappings recurse over
the union of keys with removals for left-only keys and trailing additions
for right-only keys; sequences are compared positionally; any type mismatch
is one edited entry replacing the whole subtree. -/
def diffT (p : List PathKey) (l r : DTree) : List DiffEntry :=
  match l, r with
  | DTree.scalar a, DTree.scalar b =>
    if a = b then []
    else [⟨p, ChangeKind.edited, some (DTree.scalar a), some (DTree.scalar b)⟩]
  | DTree.map a, DTree.map b =>
    diffPairs p a b ++
      (b.filter (fun kv => a.all (fun kv2 => !(kv2.1 == kv.1)))).map
        (fun kv => ⟨p ++ [PathKey.key kv.1], ChangeKind.added, none, some kv.2⟩)
  | DTree.seq a, DTree.seq b => diffSeq p 0 a b
  | a, b => [⟨p, ChangeKind.edited, some a, some b⟩]
termination_by sizeOf l + sizeOf r

/-- Pre-order walk over the left mapping: each key is either recursed into
(when the right mapping has it) or emitted as removed. -/
def diffPairs (p : List PathKey) (a b : List (String × DTree)) : List DiffEntry :=
  match a with
  | [] => []
  | (k, v) :: rest => diffKey p k v b ++ diffPairs p rest b
termination_by sizeOf a + sizeOf b

/-- Looks up one left-hand key in the right mapping: recurse on the first
match, emit a removed entry when the key is absent. -/
def diffKey (p : List PathKey) (k : String) (v : DTree) (b : List (String × DTree)) :
    List DiffEntry :=
  match b with
  | [] => [⟨p ++ [PathKey.key k], ChangeKind.removed, some v, none⟩]
  | (k2, w) :: bs => if k = k2 then diffT (p ++ [PathKey.key k]) v w else diffKey p k v bs
termination_by sizeOf v + sizeOf b

/-- Positional comparison of two sequences with trailing additions or
removals for the longer side. -/
def diffSeq (p : List PathKey) (i : Nat) (xs ys : List DTree) : List DiffEntry :=
  match xs, ys with
  | [], [] => []
  | [], y :: ys2 =>
    ⟨p ++ [PathKey.idx i], ChangeKind.added, none, some y⟩ :: diffSeq p (i + 1) [] ys2
  | x :: xs2, [] =>
    ⟨p ++ [PathKey.idx i], ChangeKind.removed, some x, none⟩ :: diffSeq p (i + 1) xs2 []
  | x :: xs2, y :: ys2 => diffT (p ++ [PathKey.idx i]) x y ++ diffSeq p (i + 1) xs2 ys2
termination_by sizeOf xs + sizeOf ys

end

mutual

/-- Well-formedness of a snapshot tree: every mapping in the tree has
pairwise distinct keys (a JSON object cannot carry duplicate keys). -/
def wfT : DTree → Bool
  | DTree.scalar _ => true
  | DTree.map a => decide ((a.map Prod.fst).Nodup) && wfPairs a
  | DTree.seq xs => wfList xs
termination_by t => sizeOf t

/-- Well-formedness of the values of a mapping. -/
def wfPairs : List (String × DTree) → Bool
  | [] => true
  | (_, v) :: rest => wfT v && wfPairs rest
termination_by a => sizeOf a

/-- Well-formedness of the elements of a sequence. -/
def wfList : List DTree → Bool
  | [] => true
  | x :: xs => wfT x && wfList xs
termination_by a => sizeOf a

end

/-- A device identifier response of exactly 41 bytes (40 hex digits and a
trailing newline). -/
def udid41 : String := String.mk (List.replicate 40 'a' ++ ['\n'])

/-- Extraction options of a run without backup and without a syslog
timeout. -/
def c1Opts : ExtractOptions := { backup := false, syslogTimeout := none }

/-- Exit codes of a run in which only the installed-applications task exits
non-zero. -/
def c1Codes : TaskExitCodes :=
  { backup := 0, installedApps := 1, provisioningProfiles := 0, crashReports := 0 }

/-- Chronological callbacks of that run: the skipped backup and
`getDeviceInfo` call back during setup, the installed-apps stdout ends and
the process then closes with exit code 1 while the provisioning-profile and
crash-report tasks are still running. -/
def c1Events : List (CaptureTaskId × CbEvent) :=
  [(CaptureTaskId.backup, CbEvent.ok), (CaptureTaskId.deviceInfo, CbEvent.ok),
   (CaptureTaskId.installedApps, CbEvent.ok), (CaptureTaskId.installedApps, CbEvent.err),
   (CaptureTaskId.provisioningProfiles, CbEvent.ok), (CaptureTaskId.crashReports, CbEvent.ok)]

/-- Exit codes of a fully successful run. -/
def okCodes : TaskExitCodes :=
  { backup := 0, installedApps := 0, provisioningProfiles := 0, crashReports := 0 }

/-- Chronological callbacks of a fully successful run. -/
def okEvents : List (CaptureTaskId × CbEvent) :=
  [(CaptureTaskId.backup, CbEvent.ok), (CaptureTaskId.deviceInfo, CbEvent.ok),
   (CaptureTaskId.installedApps, CbEvent.ok),
   (CaptureTaskId.provisioningProfiles, CbEvent.ok), (CaptureTaskId.crashReports, CbEvent.ok)]

/-- An artifact directory holding one parseable domain file and no primary
`ideviceinfo.xml` file. -/
def c3Files : List (String × Option PVal) :=
  [("ideviceinfo-com.apple.iTunes.xml", some (PVal.str "x")), ("syslog.txt", none)]

/-- Crash-log transcript with three copy lines. -/
def crashLines3 : List String :=
  ["idevicecrashreport started", "Copy: a.log", "Copy: b.log", "Copy: c.log", "Done."]

/-- Contents of the three referenced crash files. -/
def crashFs3 : List (String × String) :=
  [("a.log", "x"), ("b.log", "y"), ("c.log", "z")]

/-- The record produced for `crashLines3` over `crashFs3`. -/
def crashRec3 : CrashReportsRecord :=
  { summary := { reports := 3, filenames := ["a.log", "b.log", "c.log"] },
    details := [{ filename := "a.log", size := 1, preview := ["x"] },
                { filename := "b.log", size := 1, preview := ["y"] },
                { filename := "c.log", size := 1, preview := ["z"] }] }

/-- A 500-character file content. -/
def content500 : String := String.mk (List.replicate 500 'a')

/-- Processed snapshot whose device is not password protected, runs the
latest version, and carries one provisioning profile. -/
def c6Snap : ProcessedSnapshot :=
  { passwordProtected := some false, productVersion := "10.2.1",
    pprofilesFound := 1, nonAppleSigner := 0 }

/-- Processed snapshot whose only firing rule is the password rule. -/
def c6GoodSnap : ProcessedSnapshot :=
  { passwordProtected := some false, productVersion := "10.2.1",
    pprofilesFound := 0, nonAppleSigner := 0 }

/-- An application record list with ten entries: seven `User` and three
`System` applications, two of which are signed by a non-platform identity. -/
def appsTen : List (List (String × PVal)) :=
  [[("CFBundleIdentifier", PVal.str "com.example.one"), ("ApplicationType", PVal.str "User"),
    ("SignerIdentity", PVal.str "Apple iPhone OS Application Signing")],
   [("CFBundleIdentifier", PVal.str "com.example.two"), ("ApplicationType", PVal.str "User"),
    ("SignerIdentity", PVal.str "Evil Developer Cert")],
   [("CFBundleIdentifier", PVal.str "com.example.three"), ("ApplicationType", PVal.str "User"),
    ("SignerIdentity", PVal.str "Apple iPhone OS Application Signing")],
   [("CFBundleIdentifier", PVal.str "com.example.four"), ("ApplicationType", PVal.str "User"),
    ("SignerIdentity", PVal.str "Apple iPhone OS Application Signing")],
   [("CFBundleIdentifier", PVal.str "com.example.five"), ("ApplicationType", PVal.str "User"),
    ("SignerIdentity", PVal.str "Another Developer Cert")],
   [("CFBundleIdentifier", PVal.str "com.example.six"), ("ApplicationType", PVal.str "User"),
    ("SignerIdentity", PVal.str "Apple iPhone OS Application Signing")],
   [("CFBundleIdentifier", PVal.str "com.example.seven"), ("ApplicationType", PVal.str "User"),
    ("SignerIdentity", PVal.str "Apple iPhone OS Application Signing")],
   [("CFBundleIdentifier", PVal.str "com.apple.mobilesafari"), ("ApplicationType", PVal.str "System")],
   [("CFBundleIdentifier", PVal.str "com.apple.mobilemail"), ("ApplicationType", PVal.str "System")],
   [("CFBundleIdentifier", PVal.str "com.apple.camera"), ("ApplicationType", PVal.str "System")]]

/-- A small well-formed snapshot tree. -/
def sampleTree : DTree :=
  DTree.map
    [("device", DTree.map [("ProductVersion", DTree.scalar "10.2.1"),
                           ("PasswordProtected", DTree.scalar "false")]),
     ("apps", DTree.seq [DTree.scalar "com.example.one", DTree.scalar "com.apple.camera"]),
     ("issues", DTree.seq [])]

theorem processBackup_foldl (lines : List String) (acc : JsonScalar) :
    lines.foldl
      (fun acc l =>
        if jsStartsWith l "Received " then JsonScalar.str ((jsSplit ' ' l).getD 1 "")
        else acc) acc =
    (match lines.reverse.find? (fun l => jsStartsWith l "Received ") with
     | some l => JsonScalar.str ((jsSplit ' ' l).getD 1 "")
     | none => acc) := by
  induction lines generalizing acc with
  | nil => rfl
  | cons l rest ih =>
    rw [List.foldl_cons, ih]
    rw [List.reverse_cons, List.find?_append]
    cases h : rest.reverse.find? (fun l => jsStartsWith l "Received ") with
    | some m => simp [Option.or]
    | none =>
      simp only [Option.or, List.find?]
      cases hl : jsStartsWith l "Received " <;> simp [hl]

/-- Claim C10: for every backup log processed by `processBackup`, the summary
`files` value is the raw second space-delimited token of a line beginning
with `Received `, taken verbatim as a string; the last such line wins, and
when no such line exists the value is the number `0`. -/
theorem backup_files_value (lines : List String) :
    processBackup lines =
      (match lines.reverse.find? (fun l => jsStartsWith l "Received ") with
       | some l => JsonScalar.str ((jsSplit ' ' l).getD 1 "")
       | none => JsonScalar.num 0) := by
  unfold processBackup
  exact processBackup_foldl lines (JsonScalar.num 0)

/-- Claim C9: after every run of `findIssues` the reported count equals the
number of findings in the details list. -/
theorem findIssues_count_invariant (latest : String) (d : ProcessedSnapshot) :
    (findIssues latest d).count = (findIssues latest d).details.length := by
  unfold findIssues
  split_ifs <;> simp

/-- Claim C6 counterexample: a snapshot that is not password protected and
runs the configured latest version, but carries one provisioning profile,
yields two findings, not exactly one. -/
theorem c6_two_findings :
    c6Snap.passwordProtected = some false ∧
    c6Snap.productVersion = "10.2.1" ∧
    (findIssues "10.2.1" c6Snap).details.length ≠ 1 ∧
    (findIssues "10.2.1" c6Snap).details.map Finding.title =
      ["Device not password protected", "Provisioning profiles found"] := by
  refine ⟨rfl, rfl, by decide, rfl⟩

/-- Claim C6 (amended): when the device is not password protected, the
version matches the configured latest, no provisioning profiles were found
and no non-Apple-signed applications exist, `findIssues` yields exactly the
password-protection finding of medium severity. -/
theorem findIssues_password_only (latest : String) (d : ProcessedSnapshot)
    (h1 : d.passwordProtected = some false) (h2 : d.productVersion = latest)
    (h3 : d.pprofilesFound = 0) (h4 : d.nonAppleSigner = 0) :
    (findIssues latest d).details = [passwordFinding] ∧
    (findIssues latest d).count = 1 ∧
    passwordFinding.level = "medium" := by
  unfold findIssues
  refine ⟨?_, ?_, rfl⟩ <;> simp [h1, h2, h3, h4]

theorem findIssues_password_only_witness :
    (findIssues "10.2.1" c6GoodSnap).details = [passwordFinding] ∧
    (findIssues "10.2.1" c6GoodSnap).count = 1 ∧
    passwordFinding.level = "medium" :=
  findIssues_password_only "10.2.1" c6GoodSnap rfl rfl rfl rfl

/-- Claim C2: a 41-byte toolset response resolves the identifier to the
trimmed response and extraction proceeds; an empty response fails the whole
extraction with the no-authorized-device error; any other response fails the
whole extraction with the response itself as the error. -/
theorem getUDID_resolution (o : String) (opts : ExtractOptions)
    (events : List (CaptureTaskId × CbEvent)) :
    (o.length = 41 → getUDID o = Except.ok (jsTrim o) ∧
       extractArtifacts o opts events = Except.ok (extractionRun opts events)) ∧
    (o.length = 0 → extractArtifacts o opts events =
       Except.error "No authorized iDevice found. Plug in and authorize a device first.") ∧
    (o.length ≠ 0 → o.length ≠ 41 → extractArtifacts o opts events = Except.error o) := by
  refine ⟨fun h => ?_, fun h => ?_, fun h h2 => ?_⟩
  · constructor <;> simp [getUDID, extractArtifacts, h]
  · simp [getUDID, extractArtifacts, h]
  · simp [getUDID, extractArtifacts, h, h2]

theorem getUDID_resolution_witness :
    (getUDID udid41 = Except.ok (jsTrim udid41) ∧
      extractArtifacts udid41 c1Opts okEvents = Except.ok (extractionRun c1Opts okEvents)) ∧
    extractArtifacts "" c1Opts okEvents =
      Except.error "No authorized iDevice found. Plug in and authorize a device first." ∧
    extractArtifacts "ERROR: Could not connect to lockdownd" c1Opts okEvents =
      Except.error "ERROR: Could not connect to lockdownd" :=
  ⟨(getUDID_resolution udid41 c1Opts okEvents).1 (by decide),
   (getUDID_resolution "" c1Opts okEvents).2.1 rfl,
   (getUDID_resolution "ERROR: Could not connect to lockdownd" c1Opts okEvents).2.2
     (by decide) (by decide)⟩

/-- Claim C1: evaluation of the orchestration model at the failing input.
With device resolution succeeded and the installed-applications task exiting
non-zero while two bounded tasks are still pending, the run does not produce
a per-task outcome map: the second invocation of the installed-apps callback
raises the uncaught `Callback was already called` exception, the final
parallel callback never runs, and the syslog child is never signalled. -/
theorem c1_failed_task_crashes_run :
    validEvents c1Opts c1Codes c1Events = true ∧
    (extractionRun c1Opts c1Events).crashed = true ∧
    (extractionRun c1Opts c1Events).finished = false ∧
    (extractionRun c1Opts c1Events).sigintSent = false := by decide

/-- Claim C8 counterexample: in a valid run without a syslog duration in
which the installed-applications task exits non-zero, the streaming capture
receives no SIGINT at all, so the claimed equivalence fails. -/
theorem c8_crash_preempts_sigint :
    validEvents c1Opts c1Codes c1Events = true ∧
    c1Opts.syslogTimeout = none ∧
    (extractionRun c1Opts c1Events).sigintSent = false := by decide

/-- Claim C3 counterexample: with no primary `ideviceinfo.xml` file in the
artifact directory, `processDeviceInfo` still succeeds — it records the snag
message, keeps the parsed domain file, and reports no error. -/
theorem c3_missing_primary_still_ok :
    (c3Files.lookup "ideviceinfo.xml") = none ∧
    (processDeviceInfo c3Files).isOk = true ∧
    processDeviceInfo c3Files =
      Except.ok ({ standard := none, domains := [("com.apple.iTunes", PVal.str "x")] },
                 "Hit snag processing main ideviceinfo plist") :=
  ⟨rfl, rfl, rfl⟩

theorem lookup_skip_entry (pre post : List (String × Option PVal)) (name k : String)
    (v : Option PVal) (h : ¬ k = name) :
    List.lookup k (pre ++ (name, v) :: post) = List.lookup k (pre ++ post) := by
  induction pre with
  | nil =>
    simp only [List.nil_append, List.lookup]
    have hb : (k == name) = false := beq_eq_false_iff_ne.mpr h
    simp [hb]
  | cons a rest ih =>
    simp only [List.cons_append, List.lookup]
    cases hb : (k == a.1) <;> simp [hb, ih]

/-- Claim C3 (amended): `processDeviceInfo` skips any missing or unparseable
per-domain file without failing, and it also tolerates a missing or
unparseable primary `ideviceinfo.xml` file: in that case it records the snag
message and an empty standard section, and still succeeds. -/
theorem processDeviceInfo_tolerant (files pre post : List (String × Option PVal))
    (name : String) (hn : ¬ name = "ideviceinfo.xml")
    (hp : (files.lookup "ideviceinfo.xml").join = none) :
    (processDeviceInfo files).isOk = true ∧
    (∀ r m, processDeviceInfo files = Except.ok (r, m) →
       r.standard = none ∧ m = "Hit snag processing main ideviceinfo plist") ∧
    (∀ r m r2 m2, processDeviceInfo (pre ++ (name, none) :: post) = Except.ok (r, m) →
       processDeviceInfo (pre ++ post) = Except.ok (r2, m2) →
       r.domains = r2.domains ∧ r.standard = r2.standard) := by
  refine ⟨rfl, ?_, ?_⟩
  · intro r m h
    rw [processDeviceInfo] at h
    simp only [hp, Option.isSome_none, Bool.false_eq_true, if_false, Except.ok.injEq,
      Prod.mk.injEq] at h
    obtain ⟨hr, hm⟩ := h
    exact ⟨by rw [← hr], hm.symm⟩
  · intro r m r2 m2 h1 h2
    rw [processDeviceInfo] at h1 h2
    simp only [Except.ok.injEq, Prod.mk.injEq] at h1 h2
    obtain ⟨hr1, _⟩ := h1
    obtain ⟨hr2, _⟩ := h2
    have hdom : (pre ++ (name, none) :: post).filterMap
        (fun nc => if jsStartsWith nc.1 "ideviceinfo-" then
          nc.2.map fun v => (domainNameOf nc.1, v) else none) =
        (pre ++ post).filterMap
        (fun nc => if jsStartsWith nc.1 "ideviceinfo-" then
          nc.2.map fun v => (domainNameOf nc.1, v) else none) := by
      simp [List.filterMap_append, List.filterMap_cons]
    have hstd : (List.lookup "ideviceinfo.xml" (pre ++ (name, none) :: post)).join =
        (List.lookup "ideviceinfo.xml" (pre ++ post)).join := by
      rw [lookup_skip_entry pre post name "ideviceinfo.xml" none (fun hh => hn hh.symm)]
    constructor
    · rw [← hr1, ← hr2]
      simp [hdom]
    · rw [← hr1, ← hr2]
      simpa [Option.join] using hstd

theorem processDeviceInfo_tolerant_witness :
    (processDeviceInfo c3Files).isOk = true ∧
    (∀ r m, processDeviceInfo c3Files = Except.ok (r, m) →
       r.standard = none ∧ m = "Hit snag processing main ideviceinfo plist") :=
  ⟨(processDeviceInfo_tolerant c3Files [] [] "syslog.txt" (by decide) rfl).1,
   (processDeviceInfo_tolerant c3Files [] [] "syslog.txt" (by decide) rfl).2.1⟩

/-- Claim C5 counterexample: a copy line referencing an empty file gets the
placeholder preview `["Empty file"]`, while the first 500 bytes of the empty
file split into lines would be `[""]`. -/
theorem c5_empty_file_preview :
    processCrashReports ["Copy: a.log"] [("a.log", "")] =
      some { summary := { reports := 1, filenames := ["a.log"] },
             details := [{ filename := "a.log", size := 0, preview := ["Empty file"] }] } ∧
    jsSplit '\n' (String.mk (("" : String).data.take 500)) = [""] ∧
    (["Empty file"] : List String) ≠ [""] :=
  ⟨rfl, rfl, by decide⟩

theorem scanCopy_foldl (lines : List String) (n : Nat) (fs : List String) :
    lines.foldl
      (fun acc l =>
        if jsStartsWith l "Copy: " then (acc.1 + 1, acc.2 ++ [(jsSplit ' ' l).getD 1 ""])
        else acc) (n, fs) =
    (n + (lines.filter fun l => jsStartsWith l "Copy: ").length,
     fs ++ (lines.filter fun l => jsStartsWith l "Copy: ").map
       fun l => (jsSplit ' ' l).getD 1 "") := by
  induction lines generalizing n fs with
  | nil => simp
  | cons l rest ih =>
    rw [List.foldl_cons]
    cases h : jsStartsWith l "Copy: " with
    | false => simp only [h, Bool.false_eq_true, if_false, ih, List.filter_cons, h]
    | true =>
      simp only [h, if_true, ih, List.filter_cons, List.map_cons, List.length_cons,
        Prod.mk.injEq]
      refine ⟨by omega, by simp⟩

theorem crashDetails_spec (fsc : List (String × String)) :
    ∀ fs ds, crashDetails fsc fs = some ds →
      ds.map CrashFileDetail.filename = fs ∧
      ∀ d ∈ ds, ∃ c, fsc.lookup d.filename = some c ∧
        d.size = c.data.length ∧ d.preview = crashPreview c := by
  intro fs
  induction fs with
  | nil =>
    intro ds h
    rw [crashDetails] at h
    obtain rfl : ([] : List CrashFileDetail) = ds := Option.some.inj h
    simp
  | cons f rest ih =>
    intro ds h
    rw [crashDetails] at h
    cases h1 : crashDetailFor fsc f with
    | none => rw [h1] at h; exact absurd h (by simp)
    | some d =>
      cases h2 : crashDetails fsc rest with
      | none => rw [h1, h2] at h; exact absurd h (by simp)
      | some ds2 =>
        rw [h1, h2] at h
        obtain rfl : d :: ds2 = ds := Option.some.inj h
        obtain ⟨ih1, ih2⟩ := ih ds2 h2
        rw [crashDetailFor] at h1
        obtain ⟨c, hc, hd⟩ := Option.map_eq_some'.mp h1
        constructor
        · simp [← hd, ih1]
        · intro d2 hd2
          rcases List.mem_cons.mp hd2 with hcase | hcase
          · subst hcase
            exact ⟨c, by rw [← hd]; exact hc, by rw [← hd], by rw [← hd]⟩
          · exact ih2 d2 hcase

/-- Claim C5 (amended): `processCrashReports` collects, in input order, the
second space-delimited field of each line beginning with `Copy: `, reports a
count equal to the number of such lines, and for each referenced file records
its byte size and a preview split at newlines — the whole content for a
nonempty file below 500 bytes, the first 500 bytes for a larger file, and the
placeholder line `Empty file` for an empty file. -/
theorem crashReports_normalization (lines : List String) (fsc : List (String × String)) :
    (scanCopyLines lines).1 = (lines.filter fun l => jsStartsWith l "Copy: ").length ∧
    (scanCopyLines lines).2 =
      (lines.filter fun l => jsStartsWith l "Copy: ").map
        (fun l => (jsSplit ' ' l).getD 1 "") ∧
    (scanCopyLines lines).2.length = (scanCopyLines lines).1 ∧
    (∀ c : String, 0 < c.data.length → c.data.length < 500 →
       crashPreview c = jsSplit '\n' c) ∧
    (∀ c : String, 500 ≤ c.data.length →
       crashPreview c = jsSplit '\n' (String.mk (c.data.take 500))) ∧
    crashPreview "" = ["Empty file"] ∧
    (∀ r, processCrashReports lines fsc = some r →
       r.summary.reports = (scanCopyLines lines).1 ∧
       r.summary.filenames = (scanCopyLines lines).2 ∧
       r.details.map CrashFileDetail.filename = r.summary.filenames ∧
       ∀ d ∈ r.details, ∃ c, fsc.lookup d.filename = some c ∧
         d.size = c.data.length ∧ d.preview = crashPreview c) := by
  have hscan : scanCopyLines lines =
      ((lines.filter fun l => jsStartsWith l "Copy: ").length,
       (lines.filter fun l => jsStartsWith l "Copy: ").map
         fun l => (jsSplit ' ' l).getD 1 "") := by
    rw [scanCopyLines, scanCopy_foldl]
    simp
  refine ⟨?_, ?_, ?_, ?_, ?_, rfl, ?_⟩
  · rw [hscan]
  · rw [hscan]
  · rw [hscan]; simp
  · intro c h1 h2
    rw [crashPreview]
    rw [if_neg (by omega), if_pos h2]
  · intro c h1
    rw [crashPreview]
    rw [if_neg (by omega), if_neg (by omega)]
  · intro r hr
    rw [processCrashReports] at hr
    cases hd : crashDetails fsc (scanCopyLines lines).2 with
    | none => rw [hd] at hr; exact absurd hr (by simp)
    | some ds =>
      rw [hd] at hr
      obtain rfl := Option.some.inj hr
      obtain ⟨hmap, hmem⟩ := crashDetails_spec fsc (scanCopyLines lines).2 ds hd
      exact ⟨rfl, rfl, hmap, hmem⟩

theorem crashReports_normalization_witness :
    (scanCopyLines crashLines3).1 = 3 ∧
    (scanCopyLines crashLines3).2 = ["a.log", "b.log", "c.log"] ∧
    crashPreview "x" = jsSplit '\n' "x" ∧
    crashPreview content500 = jsSplit '\n' (String.mk (content500.data.take 500)) ∧
    crashRec3.summary.filenames = (scanCopyLines crashLines3).2 ∧
    crashRec3.details.map CrashFileDetail.filename = crashRec3.summary.filenames := by
  have h := crashReports_normalization crashLines3 crashFs3
  have e : processCrashReports crashLines3 crashFs3 = some crashRec3 := rfl
  have hr := h.2.2.2.2.2.2 crashRec3 e
  exact ⟨by rw [h.1]; rfl, by rw [h.2.1]; rfl,
         h.2.2.2.1 "x" (by decide) (by decide),
         h.2.2.2.2.1 content500 (by decide),
         hr.2.1, hr.2.2.1⟩

theorem atsStep_totalApps (s : AppsSummary) (tp : String × PVal) :
    (atsStep s tp).totalApps = s.totalApps := by
  rw [atsStep]; split_ifs <;> rfl

theorem atsStep_userApps (s : AppsSummary) (tp : String × PVal) :
    (atsStep s tp).userApps = s.userApps := by
  rw [atsStep]; split_ifs <;> rfl

theorem atsStep_systemApps (s : AppsSummary) (tp : String × PVal) :
    (atsStep s tp).systemApps = s.systemApps := by
  rw [atsStep]; split_ifs <;> rfl

theorem atsStep_nonAppleSigner (s : AppsSummary) (tp : String × PVal) :
    (atsStep s tp).nonAppleSigner = s.nonAppleSigner := by
  rw [atsStep]; split_ifs <;> rfl

theorem atsFold_totalApps (d : List (String × PVal)) :
    ∀ s : AppsSummary, (d.foldl atsStep s).totalApps = s.totalApps := by
  induction d with
  | nil => intro s; rfl
  | cons a rest ih => intro s; rw [List.foldl_cons, ih, atsStep_totalApps]

theorem atsFold_userApps (d : List (String × PVal)) :
    ∀ s : AppsSummary, (d.foldl atsStep s).userApps = s.userApps := by
  induction d with
  | nil => intro s; rfl
  | cons a rest ih => intro s; rw [List.foldl_cons, ih, atsStep_userApps]

theorem atsFold_systemApps (d : List (String × PVal)) :
    ∀ s : AppsSummary, (d.foldl atsStep s).systemApps = s.systemApps := by
  induction d with
  | nil => intro s; rfl
  | cons a rest ih => intro s; rw [List.foldl_cons, ih, atsStep_systemApps]

theorem atsFold_nonAppleSigner (d : List (String × PVal)) :
    ∀ s : AppsSummary, (d.foldl atsStep s).nonAppleSigner = s.nonAppleSigner := by
  induction d with
  | nil => intro s; rfl
  | cons a rest ih => intro s; rw [List.foldl_cons, ih, atsStep_nonAppleSigner]

theorem atsScan_totalApps (s : AppsSummary) (v : PVal) :
    (atsScan s v).totalApps = s.totalApps := by
  cases v <;> first | rfl | exact atsFold_totalApps _ s

theorem atsScan_userApps (s : AppsSummary) (v : PVal) :
    (atsScan s v).userApps = s.userApps := by
  cases v <;> first | rfl | exact atsFold_userApps _ s

theorem atsScan_systemApps (s : AppsSummary) (v : PVal) :
    (atsScan s v).systemApps = s.systemApps := by
  cases v <;> first | rfl | exact atsFold_systemApps _ s

theorem atsScan_nonAppleSigner (s : AppsSummary) (v : PVal) :
    (atsScan s v).nonAppleSigner = s.nonAppleSigner := by
  cases v <;> first | rfl | exact atsFold_nonAppleSigner _ s

theorem appAttribStep_totalApps (s : AppsSummary) (a : String) (v : PVal) :
    (appAttribStep s a v).totalApps = s.totalApps := by
  unfold appAttribStep
  split_ifs <;> (try cases v) <;> simp_all [atsScan_totalApps]

theorem appAttribStep_userApps (s : AppsSummary) (a : String) (v : PVal) :
    (appAttribStep s a v).userApps =
      s.userApps + (if a == "ApplicationType" && pvIsStr "User" v then 1 else 0) := by
  unfold appAttribStep
  split_ifs <;> (try cases v) <;> simp_all [atsScan_userApps, pvIsStr]

theorem appAttribStep_systemApps (s : AppsSummary) (a : String) (v : PVal) :
    (appAttribStep s a v).systemApps =
      s.systemApps + (if a == "ApplicationType" && pvIsStr "System" v then 1 else 0) := by
  unfold appAttribStep
  split_ifs <;> (try cases v) <;> simp_all [atsScan_systemApps, pvIsStr]

theorem appAttribStep_nonAppleSigner (s : AppsSummary) (a : String) (v : PVal) :
    (appAttribStep s a v).nonAppleSigner =
      s.nonAppleSigner +
        (if a == "SignerIdentity" && !pvIsStr "Apple iPhone OS Application Signing" v
         then 1 else 0) := by
  unfold appAttribStep
  split_ifs <;> (try cases v) <;> simp_all [atsScan_nonAppleSigner, pvIsStr]

theorem attribFold_totalApps (app : List (String × PVal)) :
    ∀ s : AppsSummary,
      (app.foldl (fun acc kv => appAttribStep acc kv.1 kv.2) s).totalApps = s.totalApps := by
  induction app with
  | nil => intro s; rfl
  | cons kv rest ih => intro s; rw [List.foldl_cons, ih, appAttribStep_totalApps]

theorem attribFold_userApps (app : List (String × PVal)) :
    ∀ s : AppsSummary,
      (app.foldl (fun acc kv => appAttribStep acc kv.1 kv.2) s).userApps =
        s.userApps + app.countP (fun kv => kv.1 == "ApplicationType" && pvIsStr "User" kv.2) := by
  induction app with
  | nil => intro s; simp
  | cons kv rest ih =>
    intro s
    rw [List.foldl_cons, ih, appAttribStep_userApps, List.countP_cons]
    omega

theorem attribFold_systemApps (app : List (String × PVal)) :
    ∀ s : AppsSummary,
      (app.foldl (fun acc kv => appAttribStep acc kv.1 kv.2) s).systemApps =
        s.systemApps + app.countP (fun kv => kv.1 == "ApplicationType" && pvIsStr "System" kv.2) := by
  induction app with
  | nil => intro s; simp
  | cons kv rest ih =>
    intro s
    rw [List.foldl_cons, ih, appAttribStep_systemApps, List.countP_cons]
    omega

theorem attribFold_nonAppleSigner (app : List (String × PVal)) :
    ∀ s : AppsSummary,
      (app.foldl (fun acc kv => appAttribStep acc kv.1 kv.2) s).nonAppleSigner =
        s.nonAppleSigner + app.countP
          (fun kv => kv.1 == "SignerIdentity" &&
            !pvIsStr "Apple iPhone OS Application Signing" kv.2) := by
  induction app with
  | nil => intro s; simp
  | cons kv rest ih =>
    intro s
    rw [List.foldl_cons, ih, appAttribStep_nonAppleSigner, List.countP_cons]
    omega

theorem processApp_totalApps (s : AppsSummary) (app : List (String × PVal)) :
    (processApp s app).totalApps = s.totalApps + 1 := by
  unfold processApp
  rw [attribFold_totalApps]

theorem processApp_userApps (s : AppsSummary) (app : List (String × PVal)) :
    (processApp s app).userApps =
      s.userApps + app.countP (fun kv => kv.1 == "ApplicationType" && pvIsStr "User" kv.2) := by
  unfold processApp
  rw [attribFold_userApps]

theorem processApp_systemApps (s : AppsSummary) (app : List (String × PVal)) :
    (processApp s app).systemApps =
      s.systemApps + app.countP (fun kv => kv.1 == "ApplicationType" && pvIsStr "System" kv.2) := by
  unfold processApp
  rw [attribFold_systemApps]

theorem processApp_nonAppleSigner (s : AppsSummary) (app : List (String × PVal)) :
    (processApp s app).nonAppleSigner =
      s.nonAppleSigner + app.countP
        (fun kv => kv.1 == "SignerIdentity" &&
          !pvIsStr "Apple iPhone OS Application Signing" kv.2) := by
  unfold processApp
  rw [attribFold_nonAppleSigner]

theorem processFold_totalApps (apps : List (List (String × PVal))) :
    ∀ s : AppsSummary, (apps.foldl processApp s).totalApps = s.totalApps + apps.length := by
  induction apps with
  | nil => intro s; simp
  | cons app rest ih =>
    intro s
    rw [List.foldl_cons, ih, processApp_totalApps, List.length_cons]
    omega

theorem processFold_userApps (apps : List (List (String × PVal))) :
    ∀ s : AppsSummary, (apps.foldl processApp s).userApps =
      s.userApps + (apps.map fun app =>
        app.countP (fun kv => kv.1 == "ApplicationType" && pvIsStr "User" kv.2)).sum := by
  induction apps with
  | nil => intro s; simp
  | cons app rest ih =>
    intro s
    rw [List.foldl_cons, ih, processApp_userApps, List.map_cons, List.sum_cons]
    omega

theorem processFold_systemApps (apps : List (List (String × PVal))) :
    ∀ s : AppsSummary, (apps.foldl processApp s).systemApps =
      s.systemApps + (apps.map fun app =>
        app.countP (fun kv => kv.1 == "ApplicationType" && pvIsStr "System" kv.2)).sum := by
  induction apps with
  | nil => intro s; simp
  | cons app rest ih =>
    intro s
    rw [List.foldl_cons, ih, processApp_systemApps, List.map_cons, List.sum_cons]
    omega

theorem processFold_nonAppleSigner (apps : List (List (String × PVal))) :
    ∀ s : AppsSummary, (apps.foldl processApp s).nonAppleSigner =
      s.nonAppleSigner + (apps.map fun app =>
        app.countP (fun kv => kv.1 == "SignerIdentity" &&
          !pvIsStr "Apple iPhone OS Application Signing" kv.2)).sum := by
  induction apps with
  | nil => intro s; simp
  | cons app rest ih =>
    intro s
    rw [List.foldl_cons, ih, processApp_nonAppleSigner, List.map_cons, List.sum_cons]
    omega

theorem countP_keyed (app : List (String × PVal)) (k : String) (q : PVal → Bool)
    (h : (app.map Prod.fst).Nodup) :
    app.countP (fun kv => kv.1 == k && q kv.2) =
      (match app.lookup k with
       | some v => if q v then 1 else 0
       | none => 0) := by
  induction app with
  | nil => rfl
  | cons kv rest ih =>
    obtain ⟨k1, v1⟩ := kv
    rw [List.map_cons, List.nodup_cons] at h
    obtain ⟨hnot, hnd⟩ := h
    rw [List.countP_cons]
    by_cases hk : k1 = k
    · subst hk
      have hz : rest.countP (fun kv => kv.1 == k1 && q kv.2) = 0 := by
        rw [List.countP_eq_zero]
        intro kv2 hkv2
        have hmem : kv2.1 ∈ List.map Prod.fst rest := List.mem_map.mpr ⟨kv2, hkv2, rfl⟩
        have hne : kv2.1 ≠ k1 := by
          intro hc
          exact hnot (hc ▸ hmem)
        simp [hne]
      rw [hz]
      simp [List.lookup]
    · have hb : (k == k1) = false := beq_eq_false_iff_ne.mpr (Ne.symm hk)
      have hb2 : (k1 == k) = false := beq_eq_false_iff_ne.mpr hk
      have hlk : List.lookup k ((k1, v1) :: rest) = List.lookup k rest := by
        simp [List.lookup, hb]
      rw [hlk, ih hnd, hb2]
      simp

theorem sum_indicator_countP (apps : List (List (String × PVal))) (k : String)
    (q : PVal → Bool) (h : ∀ app ∈ apps, (app.map Prod.fst).Nodup) :
    (apps.map (fun app => app.countP (fun kv => kv.1 == k && q kv.2))).sum =
      apps.countP (fun app =>
        match app.lookup k with
        | some v => q v
        | none => false) := by
  induction apps with
  | nil => rfl
  | cons app rest ih =>
    rw [List.map_cons, List.sum_cons, List.countP_cons,
        ih (fun a ha => h a (List.mem_cons_of_mem _ ha)),
        countP_keyed app k q (h app (List.mem_cons_self _ _))]
    cases hl : app.lookup k with
    | none => simp
    | some v => cases hq : q v <;> (simp [hq]; try omega)

/-- Claim C4: the summary counters of `processInstalledAppsXML` equal, for
every parsed application list with the usual unique property names per
record: `totalApps` the number of records, `userApps` the number whose
`ApplicationType` is `User`, `systemApps` the number whose `ApplicationType`
is `System`, and `nonAppleSigner` the number whose `SignerIdentity` is
present and differs from `Apple iPhone OS Application Signing`. -/
theorem installedApps_summary_counts (apps : List (List (String × PVal)))
    (h : ∀ app ∈ apps, (app.map Prod.fst).Nodup) :
    (processInstalledAppsXML apps).totalApps = apps.length ∧
    (processInstalledAppsXML apps).userApps =
      apps.countP (fun app =>
        match app.lookup "ApplicationType" with
        | some v => pvIsStr "User" v
        | none => false) ∧
    (processInstalledAppsXML apps).systemApps =
      apps.countP (fun app =>
        match app.lookup "ApplicationType" with
        | some v => pvIsStr "System" v
        | none => false) ∧
    (processInstalledAppsXML apps).nonAppleSigner =
      apps.countP (fun app =>
        match app.lookup "SignerIdentity" with
        | some v => !pvIsStr "Apple iPhone OS Application Signing" v
        | none => false) := by
  unfold processInstalledAppsXML
  refine ⟨?_, ?_, ?_, ?_⟩
  · rw [processFold_totalApps]; simp [initAppsSummary]
  · rw [processFold_userApps, sum_indicator_countP apps "ApplicationType" (pvIsStr "User") h]
    simp [initAppsSummary]
  · rw [processFold_systemApps, sum_indicator_countP apps "ApplicationType" (pvIsStr "System") h]
    simp [initAppsSummary]
  · rw [processFold_nonAppleSigner,
        sum_indicator_countP apps "SignerIdentity"
          (fun v => !pvIsStr "Apple iPhone OS Application Signing" v) h]
    simp [initAppsSummary]

theorem installedApps_summary_counts_witness :
    (processInstalledAppsXML appsTen).totalApps = 10 ∧
    (processInstalledAppsXML appsTen).userApps = 7 ∧
    (processInstalledAppsXML appsTen).systemApps = 3 ∧
    (processInstalledAppsXML appsTen).nonAppleSigner = 2 := by
  obtain ⟨h1, h2, h3, h4⟩ := installedApps_summary_counts appsTen (by decide)
  exact ⟨by rw [h1]; rfl, by rw [h2]; rfl, by rw [h3]; rfl, by rw [h4]; rfl⟩

theorem mem_allCaptureTasks (t : CaptureTaskId) : t ∈ allCaptureTasks := by
  cases t <;> simp [allCaptureTasks]

theorem runEvents_nocrash (events : List (CaptureTaskId × CbEvent)) :
    ∀ (called : List CaptureTaskId) (i : Nat) (fire : Option ParFire),
      (called ++ events.map Prod.fst).Nodup → (runEvents events called i fire).1 = false := by
  induction events with
  | nil => intro called i fire _; rfl
  | cons ev rest ih =>
    intro called i fire h
    obtain ⟨t, e⟩ := ev
    rw [List.map_cons] at h
    have h2 : (t :: (called ++ rest.map Prod.fst)).Nodup := List.perm_middle.nodup h
    have htn : t ∉ called ++ rest.map Prod.fst := (List.nodup_cons.mp h2).1
    have htc : t ∉ called := fun hc => htn (List.mem_append_left _ hc)
    simp only [runEvents]
    rw [if_neg htc]
    exact ih (t :: called) (i + 1) _ h2

theorem runEvents_fire_mono (events : List (CaptureTaskId × CbEvent)) :
    ∀ (called : List CaptureTaskId) (i : Nat) (f0 : ParFire),
      (runEvents events called i (some f0)).2 = some f0 := by
  induction events with
  | nil => intro called i f0; rfl
  | cons ev rest ih =>
    intro called i f0
    obtain ⟨t, e⟩ := ev
    by_cases htc : t ∈ called
    · simp only [runEvents]
      rw [if_pos htc]
    · simp only [runEvents]
      rw [if_neg htc]
      exact ih (t :: called) (i + 1) f0

theorem runEvents_fires (events : List (CaptureTaskId × CbEvent)) :
    ∀ (called : List CaptureTaskId) (i : Nat) (fire : Option ParFire),
      (called ++ events.map Prod.fst).Nodup →
      (∀ t : CaptureTaskId, t ∈ called ∨ t ∈ events.map Prod.fst) →
      (fire = none → ¬ allCaptureTasks.all (fun u => decide (u ∈ called)) = true) →
      (runEvents events called i fire).2.isSome = true := by
  induction events with
  | nil =>
    intro called i fire _ hcov hnf
    cases fire with
    | some f => rfl
    | none =>
      exfalso
      apply hnf rfl
      rw [List.all_eq_true]
      intro u _
      rcases hcov u with hc | hc
      · exact decide_eq_true hc
      · simp at hc
  | cons ev rest ih =>
    intro called i fire hnd hcov hnf
    obtain ⟨t, e⟩ := ev
    rw [List.map_cons] at hnd
    have h2 : (t :: (called ++ rest.map Prod.fst)).Nodup := List.perm_middle.nodup hnd
    have htn : t ∉ called ++ rest.map Prod.fst := (List.nodup_cons.mp h2).1
    have htc : t ∉ called := fun hc => htn (List.mem_append_left _ hc)
    have hcov2 : ∀ u : CaptureTaskId, u ∈ t :: called ∨ u ∈ rest.map Prod.fst := by
      intro u
      rcases hcov u with hc | hc
      · exact Or.inl (List.mem_cons_of_mem _ hc)
      · rw [List.map_cons] at hc
        rcases List.mem_cons.mp hc with hc2 | hc2
        · exact Or.inl (hc2 ▸ List.mem_cons_self _ _)
        · exact Or.inr hc2
    cases fire with
    | some f0 =>
      rw [runEvents_fire_mono]
      rfl
    | none =>
      simp only [runEvents]
      rw [if_neg htc]
      by_cases hg : (e == CbEvent.err
          || allCaptureTasks.all (fun u => decide (u ∈ t :: called))) = true
      · rw [if_pos hg, runEvents_fire_mono]
        rfl
      · rw [if_neg hg]
        apply ih (t :: called) (i + 1) none h2 hcov2
        intro _ hall
        apply hg
        rw [Bool.or_eq_true]
        exact Or.inr hall

theorem runEvents_fire_covers (events : List (CaptureTaskId × CbEvent)) :
    ∀ (called : List CaptureTaskId) (i : Nat) (fire : Option ParFire),
      (∀ p ∈ events, p.2 = CbEvent.ok) →
      (∀ g, fire = some g → ∀ t : CaptureTaskId, t ∈ g.called) →
      ∀ f, (runEvents events called i fire).2 = some f →
        ∀ t : CaptureTaskId, t ∈ f.called := by
  induction events with
  | nil =>
    intro called i fire _ hinv f hf
    exact hinv f hf
  | cons ev rest ih =>
    intro called i fire hok hinv f hf
    obtain ⟨t, e⟩ := ev
    have he : e = CbEvent.ok := hok (t, e) (List.mem_cons_self _ _)
    by_cases htc : t ∈ called
    · simp only [runEvents] at hf
      rw [if_pos htc] at hf
      exact hinv f hf
    · simp only [runEvents] at hf
      rw [if_neg htc] at hf
      refine ih (t :: called) (i + 1) _
        (fun p hp => hok p (List.mem_cons_of_mem _ hp)) ?_ f hf
      intro g hg
      cases fire with
      | some f0 =>
        have hg2 : some f0 = some g := hg
        exact (Option.some.inj hg2) ▸ hinv f0 rfl
      | none =>
        by_cases hcond : (e == CbEvent.err
            || allCaptureTasks.all (fun u => decide (u ∈ t :: called))) = true
        · have hg2 : (if e == CbEvent.err
                || allCaptureTasks.all (fun u => decide (u ∈ t :: called)) then
              some { idx := i, called := t :: called }
            else (none : Option ParFire)) = some g := hg
          rw [if_pos hcond] at hg2
          have hall : allCaptureTasks.all (fun u => decide (u ∈ t :: called)) = true := by
            subst he
            simpa using hcond
          intro u
          rw [← Option.some.inj hg2]
          exact of_decide_eq_true ((List.all_eq_true.mp hall) u (mem_allCaptureTasks u))
        · have hg2 : (if e == CbEvent.err
                || allCaptureTasks.all (fun u => decide (u ∈ t :: called)) then
              some { idx := i, called := t :: called }
            else (none : Option ParFire)) = some g := hg
          rw [if_neg hcond] at hg2
          exact absurd hg2 (by simp)

theorem runEvents_fire_prefix (suffix : List (CaptureTaskId × CbEvent)) :
    ∀ (pre : List (CaptureTaskId × CbEvent)) (fire : Option ParFire),
      (∀ g, fire = some g →
        g.called = (((pre ++ suffix).take (g.idx + 1)).map Prod.fst).reverse) →
      ∀ f, (runEvents suffix ((pre.map Prod.fst).reverse) pre.length fire).2 = some f →
        f.called = (((pre ++ suffix).take (f.idx + 1)).map Prod.fst).reverse := by
  induction suffix with
  | nil =>
    intro pre fire hinv f hf
    exact hinv f hf
  | cons ev rest ih =>
    intro pre fire hinv f hf
    obtain ⟨t, e⟩ := ev
    have hpre1 : ((pre ++ [(t, e)]).map Prod.fst).reverse = t :: (pre.map Prod.fst).reverse := by
      simp
    have hpre2 : (pre ++ [(t, e)]).length = pre.length + 1 := by simp
    have hpre3 : (pre ++ [(t, e)]) ++ rest = pre ++ (t, e) :: rest := by simp
    by_cases htc : t ∈ (pre.map Prod.fst).reverse
    · simp only [runEvents] at hf
      rw [if_pos htc] at hf
      exact hinv f hf
    · simp only [runEvents] at hf
      rw [if_neg htc] at hf
      rw [← hpre1, ← hpre2] at hf
      have hmain := ih (pre ++ [(t, e)]) _ ?_ f hf
      · rw [hpre3] at hmain
        exact hmain
      · intro g hg
        rw [hpre3]
        cases fire with
        | some f0 =>
          have hg2 : some f0 = some g := hg
          exact (Option.some.inj hg2) ▸ hinv f0 rfl
        | none =>
          rw [hpre1] at hg
          by_cases hcond : (e == CbEvent.err
              || allCaptureTasks.all
                   (fun u => decide (u ∈ t :: (pre.map Prod.fst).reverse))) = true
          · have hg2 : (if e == CbEvent.err
                  || allCaptureTasks.all
                       (fun u => decide (u ∈ t :: (pre.map Prod.fst).reverse)) then
                some { idx := pre.length, called := t :: (pre.map Prod.fst).reverse }
              else (none : Option ParFire)) = some g := hg
            rw [if_pos hcond] at hg2
            rw [← Option.some.inj hg2]
            have htake : (pre ++ (t, e) :: rest).take (pre.length + 1) = pre ++ [(t, e)] := by
              have := @List.take_append _ pre ((t, e) :: rest) 1
              simpa using this
            simp [htake]
          · have hg2 : (if e == CbEvent.err
                  || allCaptureTasks.all
                       (fun u => decide (u ∈ t :: (pre.map Prod.fst).reverse)) then
                some { idx := pre.length, called := t :: (pre.map Prod.fst).reverse }
              else (none : Option ParFire)) = some g := hg
            rw [if_neg hcond] at hg2
            exact absurd hg2 (by simp)

theorem valid_script_ok (opts : ExtractOptions) (codes : TaskExitCodes)
    (events : List (CaptureTaskId × CbEvent))
    (hv : validEvents opts codes events = true)
    (h1 : codes.backup = 0) (h2 : codes.installedApps = 0)
    (h3 : codes.provisioningProfiles = 0) (h4 : codes.crashReports = 0)
    (t : CaptureTaskId) :
    (events.filter (fun p => p.1 == t)).map Prod.snd = [CbEvent.ok] := by
  rw [validEvents, List.all_eq_true] at hv
  have hx := of_decide_eq_true (hv t (mem_allCaptureTasks t))
  rw [hx]
  cases t <;> simp [taskScript, spawnScript, h1, h2, h3, h4]

theorem valid_events_ok (opts : ExtractOptions) (codes : TaskExitCodes)
    (events : List (CaptureTaskId × CbEvent))
    (hv : validEvents opts codes events = true)
    (h1 : codes.backup = 0) (h2 : codes.installedApps = 0)
    (h3 : codes.provisioningProfiles = 0) (h4 : codes.crashReports = 0) :
    ∀ p ∈ events, p.2 = CbEvent.ok := by
  intro p hp
  have hfil : p ∈ events.filter (fun q => q.1 == p.1) := List.mem_filter.mpr ⟨hp, by simp⟩
  have hm : p.2 ∈ (events.filter (fun q => q.1 == p.1)).map Prod.snd :=
    List.mem_map.mpr ⟨p, hfil, rfl⟩
  rw [valid_script_ok opts codes events hv h1 h2 h3 h4 p.1] at hm
  simpa using hm

theorem valid_nodup (opts : ExtractOptions) (codes : TaskExitCodes)
    (events : List (CaptureTaskId × CbEvent))
    (hv : validEvents opts codes events = true)
    (h1 : codes.backup = 0) (h2 : codes.installedApps = 0)
    (h3 : codes.provisioningProfiles = 0) (h4 : codes.crashReports = 0) :
    (events.map Prod.fst).Nodup := by
  rw [List.nodup_iff_count_le_one]
  intro t
  rw [List.count_eq_countP, List.countP_map]
  have hcomp : List.countP ((fun x => x == t) ∘ Prod.fst) events =
      List.countP (fun p : CaptureTaskId × CbEvent => p.1 == t) events := rfl
  rw [hcomp, List.countP_eq_length_filter]
  have hh := congrArg List.length (valid_script_ok opts codes events hv h1 h2 h3 h4 t)
  simp only [List.length_map, List.length_cons, List.length_nil] at hh
  omega

theorem valid_covers (opts : ExtractOptions) (codes : TaskExitCodes)
    (events : List (CaptureTaskId × CbEvent))
    (hv : validEvents opts codes events = true)
    (h1 : codes.backup = 0) (h2 : codes.installedApps = 0)
    (h3 : codes.provisioningProfiles = 0) (h4 : codes.crashReports = 0) :
    ∀ t : CaptureTaskId, t ∈ events.map Prod.fst := by
  intro t
  have hh := valid_script_ok opts codes events hv h1 h2 h3 h4 t
  have hne : events.filter (fun p => p.1 == t) ≠ [] := by
    intro hc
    rw [hc] at hh
    simp at hh
  obtain ⟨p, hp⟩ := List.exists_mem_of_ne_nil _ hne
  have hmem := List.mem_filter.mp hp
  have hp1 : p.1 = t := by
    have := hmem.2
    simpa using this
  exact List.mem_map.mpr ⟨p, hmem.1, hp1⟩

/-- Claim C8 (amended): in every extraction run in which every bounded task
exits zero, the streaming syslog capture receives SIGINT exactly when the
caller supplied no explicit syslog duration, and the signal is decided at
the final parallel callback, which fires only once every bounded task has
called back, all of them within the chronological prefix up to the firing
index; when a duration was supplied, the orchestrator sends no signal and
the syslog child is spawned with an execFile timeout of the duration times
1000 milliseconds, after which it self-terminates. -/
theorem extract_syslog_termination (opts : ExtractOptions) (codes : TaskExitCodes)
    (events : List (CaptureTaskId × CbEvent))
    (hv : validEvents opts codes events = true)
    (h1 : codes.backup = 0) (h2 : codes.installedApps = 0)
    (h3 : codes.provisioningProfiles = 0) (h4 : codes.crashReports = 0) :
    (extractionRun opts events).crashed = false ∧
    (extractionRun opts events).finished = true ∧
    ((extractionRun opts events).sigintSent = true ↔ opts.syslogTimeout = none) ∧
    (∀ f, (extractionRun opts events).fire = some f →
       (∀ t : CaptureTaskId, t ∈ f.called) ∧
       f.called = ((events.take (f.idx + 1)).map Prod.fst).reverse) ∧
    (∀ d, opts.syslogTimeout = some d →
       (extractionRun opts events).sigintSent = false ∧
       (getDeviceSyslog opts.syslogTimeout).timeoutMs = d * 1000) := by
  have hnd := valid_nodup opts codes events hv h1 h2 h3 h4
  have hok := valid_events_ok opts codes events hv h1 h2 h3 h4
  have hcov := valid_covers opts codes events hv h1 h2 h3 h4
  have hnd2 : (([] : List CaptureTaskId) ++ events.map Prod.fst).Nodup := by simpa using hnd
  have hcrash : (runEvents events [] 0 none).1 = false :=
    runEvents_nocrash events [] 0 none hnd2
  have hfir : (runEvents events [] 0 none).2.isSome = true :=
    runEvents_fires events [] 0 none hnd2 (fun t => Or.inr (hcov t)) (fun _ => by decide)
  refine ⟨?_, ?_, ?_, ?_, ?_⟩
  · simpa [extractionRun] using hcrash
  · simpa [extractionRun] using hfir
  · simp only [extractionRun, Bool.and_eq_true, Option.isNone_iff_eq_none]
    constructor
    · intro hx
      exact hx.2
    · intro hx
      exact ⟨hfir, hx⟩
  · intro f hf
    have hf2 : (runEvents events [] 0 none).2 = some f := by
      simpa [extractionRun] using hf
    constructor
    · exact runEvents_fire_covers events [] 0 none hok
        (fun g hg => absurd hg (by simp)) f hf2
    · have := runEvents_fire_prefix events [] none
        (fun g hg => absurd hg (by simp)) f hf2
      simpa using this
  · intro d hd
    constructor
    · simp [extractionRun, hd]
    · rw [hd]
      rfl

theorem extract_syslog_termination_witness :
    validEvents c1Opts okCodes okEvents = true ∧
    (extractionRun c1Opts okEvents).crashed = false ∧
    (extractionRun c1Opts okEvents).finished = true ∧
    (extractionRun c1Opts okEvents).sigintSent = true ∧
    CaptureTaskId.deviceInfo ∈
      (ParFire.mk 4 [CaptureTaskId.crashReports, CaptureTaskId.provisioningProfiles,
        CaptureTaskId.installedApps, CaptureTaskId.deviceInfo,
        CaptureTaskId.backup]).called ∧
    (ParFire.mk 4 [CaptureTaskId.crashReports, CaptureTaskId.provisioningProfiles,
        CaptureTaskId.installedApps, CaptureTaskId.deviceInfo,
        CaptureTaskId.backup]).called =
      ((okEvents.take (4 + 1)).map Prod.fst).reverse ∧
    (extractionRun (ExtractOptions.mk false (some 86400)) okEvents).sigintSent = false ∧
    (getDeviceSyslog (some 86400)).timeoutMs = 86400 * 1000 := by
  have h := extract_syslog_termination c1Opts okCodes okEvents (by decide) rfl rfl rfl rfl
  have ht := extract_syslog_termination (ExtractOptions.mk false (some 86400))
    okCodes okEvents (by decide) rfl rfl rfl rfl
  have hfireq : (extractionRun c1Opts okEvents).fire =
      some (ParFire.mk 4 [CaptureTaskId.crashReports, CaptureTaskId.provisioningProfiles,
        CaptureTaskId.installedApps, CaptureTaskId.deviceInfo,
        CaptureTaskId.backup]) := by decide
  have hfire := h.2.2.2.1 _ hfireq
  exact ⟨by decide, h.1, h.2.1, (h.2.2.1).mpr rfl, hfire.1 CaptureTaskId.deviceInfo,
    hfire.2, (ht.2.2.2.2 86400 rfl).1, (ht.2.2.2.2 86400 rfl).2⟩

theorem dtree_sizeOf_pos (t : DTree) : 0 < sizeOf t := by
  cases t <;> simp_arith

theorem wfPairs_mem (a : List (String × DTree)) (hw : wfPairs a = true) :
    ∀ kv ∈ a, wfT kv.2 = true := by
  induction a with
  | nil => intro kv h; simp at h
  | cons hd tl ih =>
    intro kv hkv
    obtain ⟨k, v⟩ := hd
    simp only [wfPairs, Bool.and_eq_true] at hw
    rcases List.mem_cons.mp hkv with he | he
    · rw [he]
      exact hw.1
    · exact ih hw.2 kv he

theorem wfList_mem (xs : List DTree) (hw : wfList xs = true) :
    ∀ x ∈ xs, wfT x = true := by
  induction xs with
  | nil => intro x h; simp at h
  | cons y tl ih =>
    intro x hx
    simp only [wfList, Bool.and_eq_true] at hw
    rcases List.mem_cons.mp hx with he | he
    · rw [he]
      exact hw.1
    · exact ih hw.2 x he

theorem diffKey_found (b : List (String × DTree)) :
    ∀ (p : List PathKey) (k : String) (v w : DTree), b.lookup k = some w →
      diffKey p k v b = diffT (p ++ [PathKey.key k]) v w := by
  induction b with
  | nil => intro p k v w h; simp [List.lookup] at h
  | cons hd tl ih =>
    intro p k v w h
    obtain ⟨k2, w2⟩ := hd
    simp only [diffKey]
    by_cases hk : k = k2
    · subst hk
      rw [if_pos rfl]
      simp only [List.lookup, beq_self_eq_true] at h
      rw [Option.some.inj h]
    · rw [if_neg hk]
      have hb : (k == k2) = false := beq_eq_false_iff_ne.mpr hk
      simp only [List.lookup, hb] at h
      exact ih p k v w h

theorem lookup_self_of_nodup (a : List (String × DTree)) (h : (a.map Prod.fst).Nodup) :
    ∀ k v, (k, v) ∈ a → a.lookup k = some v := by
  induction a with
  | nil => intro k v h2; simp at h2
  | cons hd tl ih =>
    intro k v hm
    obtain ⟨k1, v1⟩ := hd
    rw [List.map_cons, List.nodup_cons] at h
    obtain ⟨hn, hnd⟩ := h
    rcases List.mem_cons.mp hm with he | he
    · obtain ⟨hk, hv⟩ := Prod.mk.injEq k v k1 v1 ▸ he
      subst hk
      subst hv
      simp [List.lookup]
    · have hk : k ≠ k1 := by
        intro hc
        subst hc
        exact hn (List.mem_map.mpr ⟨(k, v), he, rfl⟩)
      have hb : (k == k1) = false := beq_eq_false_iff_ne.mpr hk
      simp only [List.lookup, hb]
      exact ih hnd k v he

theorem diffPairs_self (a1 : List (String × DTree)) :
    ∀ (b : List (String × DTree)) (p : List PathKey),
      (∀ kv ∈ a1, b.lookup kv.1 = some kv.2 ∧ ∀ p2, diffT p2 kv.2 kv.2 = []) →
      diffPairs p a1 b = [] := by
  induction a1 with
  | nil => intro b p _; simp only [diffPairs]
  | cons kv rest ih =>
    intro b p hyp
    obtain ⟨k, v⟩ := kv
    simp only [diffPairs]
    obtain ⟨hl, hd⟩ := hyp (k, v) (List.mem_cons_self _ _)
    rw [diffKey_found b p k v v hl, hd (p ++ [PathKey.key k]),
        ih b p (fun kv2 h2 => hyp kv2 (List.mem_cons_of_mem _ h2))]
    rfl

theorem addedKeys_self (a : List (String × DTree)) :
    a.filter (fun kv => a.all (fun kv2 => !(kv2.1 == kv.1))) = [] := by
  rw [List.filter_eq_nil_iff]
  intro kv hkv hcontra
  have := List.all_eq_true.mp hcontra kv hkv
  simp at this

theorem diffSeq_self (xs : List DTree) :
    ∀ (p : List PathKey) (i : Nat),
      (∀ x ∈ xs, ∀ p2, diffT p2 x x = []) → diffSeq p i xs xs = [] := by
  induction xs with
  | nil => intro p i _; simp only [diffSeq]
  | cons x rest ih =>
    intro p i hyp
    simp only [diffSeq]
    rw [hyp x (List.mem_cons_self _ _),
        ih p (i + 1) (fun y hy => hyp y (List.mem_cons_of_mem _ hy))]
    rfl

theorem diffT_self_aux (n : Nat) :
    ∀ t : DTree, sizeOf t ≤ n → wfT t = true → ∀ p, diffT p t t = [] := by
  induction n with
  | zero =>
    intro t ht _ _
    exact absurd ht (by have := dtree_sizeOf_pos t; omega)
  | succ n ih =>
    intro t ht hw p
    cases t with
    | scalar s => simp [diffT]
    | map a =>
      simp only [wfT, Bool.and_eq_true, decide_eq_true_eq] at hw
      obtain ⟨hnd, hwp⟩ := hw
      have hsz : sizeOf (DTree.map a) = 1 + sizeOf a := by simp_arith
      have hpairs : diffPairs p a a = [] := by
        apply diffPairs_self a a p
        intro kv hkv
        constructor
        · have : (kv.1, kv.2) ∈ a := by
            obtain ⟨k, v⟩ := kv
            exact hkv
          exact lookup_self_of_nodup a hnd kv.1 kv.2 this
        · intro p2
          apply ih kv.2 ?_ (wfPairs_mem a hwp kv hkv) p2
          have h1 := List.sizeOf_lt_of_mem hkv
          have h2 : sizeOf kv.2 < sizeOf kv := by
            obtain ⟨k, v⟩ := kv
            simp_arith
          omega
      simp only [diffT]
      rw [hpairs, addedKeys_self a]
      rfl
    | seq xs =>
      simp only [wfT] at hw
      have hsz : sizeOf (DTree.seq xs) = 1 + sizeOf xs := by simp_arith
      simp only [diffT]
      apply diffSeq_self
      intro x hx p2
      apply ih x ?_ (wfList_mem xs hw x hx) p2
      have h1 := List.sizeOf_lt_of_mem hx
      omega

/-- Claim C7: diffing a processed snapshot data tree against itself produces
the empty DiffEntry sequence (the tree is well-formed: its mappings carry no
duplicate keys). -/
theorem diffT_self_empty (t : DTree) (h : wfT t = true) (p : List PathKey) :
    diffT p t t = [] :=
  diffT_self_aux (sizeOf t) t le_rfl h p

theorem diffT_self_empty_witness :
    wfT sampleTree = true ∧ diffT [] sampleTree sampleTree = [] := by
  have hw : wfT sampleTree = true := by
    simp [sampleTree, wfT, wfPairs, wfList]
  exact ⟨hw, diffT_self_empty sampleTree hw []⟩
